import Mathlib

/-!
Verification of the spaced-repetition / gamification core of the
chinese-learning application.

The Python sources are shallowly embedded:
* floats are modelled as rationals (`ℚ`);
* `datetime` values are modelled as integer day ordinals (`ℤ`), which is
  exact for the calendar-day arithmetic the code performs;
* Python dictionaries are modelled as association lists;
* functions that raise are modelled with `Except`.
-/

namespace ChineseLearning

/-- Python's built-in `round`: round half to even (banker's rounding). -/
def pyRound (q : ℚ) : ℤ :=
  let f := ⌊q⌋
  let frac := q - f
  if frac < 1/2 then f
  else if 1/2 < frac then f + 1
  else if f % 2 = 0 then f else f + 1

/-- Python's `int()` conversion: truncation toward zero. -/
def pyInt (q : ℚ) : ℤ :=
  if 0 ≤ q then ⌊q⌋ else -⌊-q⌋

/-- Flashcard state, from `src/learning/spaced_repetition.py` (`Card`).
The identity fields (`word_id`, `simplified`, `pinyin`, `definitions`) are
carried along untouched by the scheduling algorithm; we model the word key
separately in the store, so the record keeps only the fields the algorithm
reads or writes. -/
structure Card where
  easiness_factor : ℚ := 5/2
  interval : ℤ := 0
  repetitions : ℕ := 0
  next_review : ℤ := 0
  times_practiced : ℕ := 0
  times_correct : ℕ := 0
  mastery_level : String := "new"
  deriving Repr, DecidableEq

/-- `_calculate_mastery_level` from `src/learning/spaced_repetition.py`. -/
def calculateMasteryLevel (card : Card) : String :=
  if card.times_practiced = 0 then "new"
  else
    let accuracy : ℚ := (card.times_correct : ℚ) / (card.times_practiced : ℚ)
    if card.repetitions ≥ 5 ∧ accuracy ≥ 9/10 ∧ card.interval ≥ 21 then "mastered"
    else if card.repetitions ≥ 3 ∧ accuracy ≥ 3/4 then "proficient"
    else if card.repetitions ≥ 1 then "learning"
    else "new"

/-- `sm2_algorithm` from `src/learning/spaced_repetition.py`.  The Python
function mutates the card in place and returns it; we thread the updates
through `let`-rebindings.  `now` is the current day ordinal. -/
def sm2_algorithm (card : Card) (quality : ℤ) (now : ℤ) : Except String Card :=
  if ¬(0 ≤ quality ∧ quality ≤ 5) then
    .error "Quality must be 0-5"
  else
    let card := { card with times_practiced := card.times_practiced + 1 }
    let card :=
      if quality ≥ 3 then { card with times_correct := card.times_correct + 1 }
      else card
    let card :=
      if quality < 3 then
        { card with repetitions := 0, interval := 1 }
      else
        let newInterval : ℤ :=
          if card.repetitions = 0 then 1
          else if card.repetitions = 1 then 6
          else pyRound ((card.interval : ℚ) * card.easiness_factor)
        { card with interval := newInterval, repetitions := card.repetitions + 1 }
    let newEF : ℚ :=
      max (13/10)
        (card.easiness_factor +
          ((1/10) - ((5 : ℚ) - quality) * ((8/100) + ((5 : ℚ) - quality) * (2/100))))
    let card := { card with easiness_factor := newEF }
    let card := { card with next_review := now + card.interval }
    let card := { card with mastery_level := calculateMasteryLevel card }
    .ok card

/-- A caller that keeps the previous card state when `sm2_algorithm` raises:
in the Python source the `ValueError` is raised before any field assignment,
so the caller's card object is untouched on the error path. -/
def tryReview (card : Card) (quality now : ℤ) : Card × Bool :=
  match sm2_algorithm card quality now with
  | .ok c => (c, true)
  | .error _ => (card, false)

/-- C1: for every card and every integer quality in [0,5], `sm2_algorithm`
performs exactly the SM-2 transition: `times_practiced` increases by 1 and
`times_correct` increases by 1 exactly when quality ≥ 3; if quality < 3 the
resulting repetitions is 0 and the interval is 1 regardless of prior state;
if quality ≥ 3 the new interval is 1 when the prior repetition count is 0,
6 when it is 1, and round(prior interval × prior easiness factor)
otherwise, and repetitions increases by 1; `next_review` is set to now plus
the new interval in days. -/
theorem sm2_transition (card : Card) (quality now : ℤ)
    (h0 : 0 ≤ quality) (h5 : quality ≤ 5) :
    ∃ c, sm2_algorithm card quality now = .ok c ∧
      c.times_practiced = card.times_practiced + 1 ∧
      c.times_correct = card.times_correct + (if 3 ≤ quality then 1 else 0) ∧
      (quality < 3 → c.repetitions = 0 ∧ c.interval = 1) ∧
      (3 ≤ quality →
        c.repetitions = card.repetitions + 1 ∧
        c.interval = (if card.repetitions = 0 then 1
          else if card.repetitions = 1 then 6
          else pyRound ((card.interval : ℚ) * card.easiness_factor))) ∧
      c.next_review = now + c.interval := by
  unfold sm2_algorithm
  rw [if_neg (not_not_intro ⟨h0, h5⟩)]
  refine ⟨_, rfl, ?_⟩
  rcases lt_or_le quality 3 with h3 | h3
  · simp [if_neg (not_le.mpr h3), if_pos h3, h3, not_le.mpr h3]
  · simp [if_pos h3, if_neg (not_lt.mpr h3), h3, not_lt.mpr h3]

/-- Closed witness for `sm2_transition` at quality 4 on a concrete card. -/
theorem sm2_transition_witness :
    ∃ c, sm2_algorithm
        { easiness_factor := 5/2, interval := 6, repetitions := 2,
          times_practiced := 4, times_correct := 3 } 4 100 = .ok c ∧
      c.times_practiced = 4 + 1 ∧
      c.times_correct = 3 + (if (3:ℤ) ≤ 4 then 1 else 0) ∧
      ((4:ℤ) < 3 → c.repetitions = 0 ∧ c.interval = 1) ∧
      ((3:ℤ) ≤ 4 →
        c.repetitions = 2 + 1 ∧
        c.interval = (if 2 = 0 then 1
          else if 2 = 1 then 6
          else pyRound ((6 : ℚ) * (5/2)))) ∧
      c.next_review = 100 + c.interval :=
  sm2_transition
    { easiness_factor := 5/2, interval := 6, repetitions := 2,
      times_practiced := 4, times_correct := 3 } 4 100
    (by decide) (by decide)

/-- C2: for every card and quality in [0,5], `sm2_algorithm` sets the new
easiness factor to max(1.3, EF + (0.1 − (5−q)·(0.08 + (5−q)·0.02))) where
EF is the prior easiness factor; consequently the easiness factor after any
review is at least 1.3, whatever the prior state was — so the lower bound
is established and preserved by every review. -/
theorem sm2_easiness_factor (card : Card) (quality now : ℤ)
    (h0 : 0 ≤ quality) (h5 : quality ≤ 5) :
    ∃ c, sm2_algorithm card quality now = .ok c ∧
      c.easiness_factor =
        max (13/10)
          (card.easiness_factor +
            ((1/10) - ((5 : ℚ) - quality) * ((8/100) + ((5 : ℚ) - quality) * (2/100)))) ∧
      (13/10 : ℚ) ≤ c.easiness_factor := by
  unfold sm2_algorithm
  rw [if_neg (not_not_intro ⟨h0, h5⟩)]
  refine ⟨_, rfl, ?_, ?_⟩ <;> split_ifs <;> simp

/-- Closed witness for `sm2_easiness_factor`: quality 0 on a low-EF card
pins the result at the 1.3 floor. -/
theorem sm2_easiness_factor_witness :
    ∃ c, sm2_algorithm { easiness_factor := 7/5 } 0 0 = .ok c ∧
      c.easiness_factor =
        max (13/10)
          ((7/5 : ℚ) +
            ((1/10) - ((5 : ℚ) - 0) * ((8/100) + ((5 : ℚ) - 0) * (2/100)))) ∧
      (13/10 : ℚ) ≤ c.easiness_factor :=
  sm2_easiness_factor { easiness_factor := 7/5 } 0 0 (by decide) (by decide)

/-- C4: for every quality outside [0,5] and every card state,
`sm2_algorithm` fails with the invalid-quality error and makes no state
change: calling it twice through a state-keeping caller fails both times
and leaves `times_practiced` (indeed every field) unchanged. -/
theorem sm2_invalid_quality (card : Card) (quality now now' : ℤ)
    (h : quality < 0 ∨ 5 < quality) :
    sm2_algorithm card quality now = .error "Quality must be 0-5" ∧
    tryReview card quality now = (card, false) ∧
    tryReview (tryReview card quality now).1 quality now' = (card, false) ∧
    (tryReview (tryReview card quality now).1 quality now').1.times_practiced
      = card.times_practiced := by
  have herr : ∀ t : ℤ, sm2_algorithm card quality t = .error "Quality must be 0-5" := by
    intro t
    unfold sm2_algorithm
    rw [if_pos]
    omega
  have h1 : tryReview card quality now = (card, false) := by
    simp [tryReview, herr]
  refine ⟨herr now, h1, ?_, ?_⟩ <;> simp [h1, tryReview, herr]

/-- Closed witness for `sm2_invalid_quality` at qualities 6 and −1. -/
theorem sm2_invalid_quality_witness :
    (sm2_algorithm { times_practiced := 7 } 6 0 = .error "Quality must be 0-5" ∧
      tryReview { times_practiced := 7 } 6 0 = ({ times_practiced := 7 }, false) ∧
      tryReview (tryReview { times_practiced := 7 } 6 0).1 6 1
        = ({ times_practiced := 7 }, false) ∧
      (tryReview (tryReview { times_practiced := 7 } 6 0).1 6 1).1.times_practiced = 7) ∧
    (sm2_algorithm { times_practiced := 7 } (-1) 0 = .error "Quality must be 0-5" ∧
      tryReview { times_practiced := 7 } (-1) 0 = ({ times_practiced := 7 }, false) ∧
      tryReview (tryReview { times_practiced := 7 } (-1) 0).1 (-1) 1
        = ({ times_practiced := 7 }, false) ∧
      (tryReview (tryReview { times_practiced := 7 } (-1) 0).1 (-1) 1).1.times_practiced = 7) :=
  ⟨sm2_invalid_quality { times_practiced := 7 } 6 0 1 (by decide),
   sm2_invalid_quality { times_practiced := 7 } (-1) 0 1 (by decide)⟩

/-- One row of the `word_mastery` table from `src/core/progress_tracker.py`
(the fields the modelled operations read or write; the column defaults match
the SQL schema).  `last_practiced`/`first_learned` timestamps and the
display-only text columns are not read by any modelled operation and are
omitted. -/
structure WordRow where
  times_practiced : ℕ := 0
  times_correct : ℕ := 0
  mastery_level : String := "new"
  next_review : Option ℤ := none
  easiness_factor : ℚ := 5/2
  interval : ℤ := 0
  repetitions : ℕ := 0
  deriving Repr, DecidableEq

/-- The tracker's persistent state relevant to word reviews: the
`word_mastery` table (keyed by the simplified form, which is `UNIQUE`)
plus the `user_progress.total_words_learned` counter that
`update_word_mastery` bumps on insert. -/
structure TrackerState where
  word_mastery : List (String × WordRow) := []
  total_words_learned : ℕ := 0
  deriving Repr, DecidableEq

def lookupWord (st : TrackerState) (w : String) : Option WordRow :=
  st.word_mastery.lookup w

/-- `UPDATE ... WHERE simplified=w` on the association list (inserting at
the end if the key is absent, as the SQL INSERT-then-UPDATE pair does). -/
def setWord : List (String × WordRow) → String → WordRow → List (String × WordRow)
  | [], w, row => [(w, row)]
  | (k, r) :: rest, w, row =>
      if k = w then (w, row) :: rest else (k, r) :: setWord rest w row

/-- The mastery fallback computed inside `update_word_mastery` when the
caller supplies no `mastery_level` (progress_tracker.py lines 174–188):
a tier and a next-review offset in days, both from the practice counters
alone. -/
def storeMasteryFallback (tp tc : ℕ) : String × ℤ :=
  let accuracy : ℚ := if tp > 0 then (tc : ℚ) / (tp : ℚ) else 0
  if tp ≥ 10 ∧ accuracy ≥ 9/10 then ("mastered", 30)
  else if tp ≥ 5 ∧ accuracy ≥ 7/10 then ("proficient", 7)
  else if tp ≥ 3 then ("learning", 1)
  else ("new", 0)

/-- `ProgressTracker.update_word_mastery`.  Optional arguments model the
Python `None` defaults; the SQL `COALESCE(?, col)` calls become `Option.getD`
against the prior value. -/
def update_word_mastery (st : TrackerState) (simplified : String) (is_correct : Bool)
    (easiness_factor : Option ℚ) (interval : Option ℤ) (repetitions : Option ℕ)
    (next_review : Option ℤ) (mastery_level : Option String) (now : ℤ) : TrackerState :=
  let existing := lookupWord st simplified
  let tp := match existing with
    | some r => r.times_practiced + 1
    | none => 1
  let tc := match existing with
    | some r => r.times_correct + (if is_correct then 1 else 0)
    | none => if is_correct then 1 else 0
  let base : WordRow := (existing).getD {}
  let learnedDelta : ℕ := match existing with
    | some _ => 0
    | none => 1
  let mlnr : String × Option ℤ := match mastery_level with
    | some m => (m, next_review)
    | none =>
      let fb := storeMasteryFallback tp tc
      (fb.1, some (next_review.getD (now + fb.2)))
  { word_mastery :=
      setWord st.word_mastery simplified
        { base with
            times_practiced := tp, times_correct := tc,
            mastery_level := mlnr.1, next_review := mlnr.2,
            easiness_factor := easiness_factor.getD base.easiness_factor,
            interval := interval.getD base.interval,
            repetitions := repetitions.getD base.repetitions },
    total_words_learned := st.total_words_learned + learnedDelta }

/-- The `Card` object `process_review` builds from a stored row (the
scheduling and counter fields; `next_review`/`mastery_level` of the card are
freshly recomputed before being read, so their initial values are the
dataclass defaults). -/
def rowCard (r : WordRow) : Card :=
  { easiness_factor := r.easiness_factor, interval := r.interval,
    repetitions := r.repetitions,
    times_practiced := r.times_practiced, times_correct := r.times_correct }

/-- The result dict of `SpacedRepetitionSystem.process_review`. -/
structure ReviewResult where
  word : String
  quality : ℤ
  new_interval : ℤ
  next_review : ℤ
  mastery_level : String
  easiness_factor : ℚ
  deriving Repr, DecidableEq

/-- `SpacedRepetitionSystem.process_review`: load the card from the store,
apply `sm2_algorithm`, persist through `update_word_mastery`.  The source
returns an `{"error": ...}` dict when the word is unknown and lets the
`ValueError` of `sm2_algorithm` propagate; both are the `Except.error`
branch here, paired with the (unchanged) state. -/
def process_review (st : TrackerState) (word : String) (quality now : ℤ) :
    TrackerState × Except String ReviewResult :=
  match lookupWord st word with
  | none => (st, .error ("Word '" ++ word ++ "' not found"))
  | some row =>
    match sm2_algorithm (rowCard row) quality now with
    | .error e => (st, .error e)
    | .ok updated =>
      let st' := update_word_mastery st word (decide (3 ≤ quality))
        (some updated.easiness_factor) (some updated.interval) (some updated.repetitions)
        (some updated.next_review) (some updated.mastery_level) now
      (st', .ok ⟨word, quality, updated.interval, updated.next_review,
                 updated.mastery_level, updated.easiness_factor⟩)

/-- The spec's mastery-tier function applied to a stored record's fields
(`_calculate_mastery_level` reads only the four numeric fields). -/
def specMasteryOfRow (r : WordRow) : String :=
  calculateMasteryLevel (rowCard r)

/-- `_calculate_mastery_level` reads only the counters, the repetition count
and the interval of the card. -/
lemma calculateMasteryLevel_congr (c d : Card)
    (h1 : c.times_practiced = d.times_practiced)
    (h2 : c.times_correct = d.times_correct)
    (h3 : c.repetitions = d.repetitions)
    (h4 : c.interval = d.interval) :
    calculateMasteryLevel c = calculateMasteryLevel d := by
  unfold calculateMasteryLevel
  rw [h1, h2, h3, h4]

/-- Full characterisation of the success path of `sm2_algorithm`. -/
lemma sm2_algorithm_ok (card : Card) (quality now : ℤ)
    (h0 : 0 ≤ quality) (h5 : quality ≤ 5) :
    ∃ c, sm2_algorithm card quality now = .ok c ∧
      c.times_practiced = card.times_practiced + 1 ∧
      c.times_correct = card.times_correct + (if 3 ≤ quality then 1 else 0) ∧
      c.repetitions = (if quality < 3 then 0 else card.repetitions + 1) ∧
      c.interval = (if quality < 3 then 1
        else if card.repetitions = 0 then 1
        else if card.repetitions = 1 then 6
        else pyRound ((card.interval : ℚ) * card.easiness_factor)) ∧
      c.easiness_factor =
        max (13/10) (card.easiness_factor +
          ((1/10) - ((5 : ℚ) - quality) * ((8/100) + ((5 : ℚ) - quality) * (2/100)))) ∧
      c.next_review = now + c.interval ∧
      c.mastery_level = calculateMasteryLevel c := by
  unfold sm2_algorithm
  rw [if_neg (not_not_intro ⟨h0, h5⟩)]
  refine ⟨_, rfl, ?_, ?_, ?_, ?_, ?_, ?_, ?_⟩
  all_goals try exact calculateMasteryLevel_congr _ _ rfl rfl rfl rfl
  all_goals rcases lt_or_le quality 3 with h3 | h3
  all_goals
    first
      | simp [if_pos h3, if_neg (not_le.mpr h3), h3, not_le.mpr h3]
      | simp [if_pos h3, if_neg (not_lt.mpr h3), h3, not_lt.mpr h3]

/-- `List.lookup` after `setWord` at the same key finds the new row. -/
lemma lookup_setWord_self (l : List (String × WordRow)) (w : String) (row : WordRow) :
    (setWord l w row).lookup w = some row := by
  induction l with
  | nil => simp [setWord]
  | cons kr rest ih =>
    obtain ⟨k, r⟩ := kr
    by_cases h : k = w
    · subst h
      simp [setWord]
    · have hbeq : (w == k) = false := by simp [Ne.symm h]
      simp [setWord, h, List.lookup, hbeq, ih]

/-- `update_word_mastery` on an existing row with every SM-2 field supplied
(the call shape `process_review` uses). -/
lemma update_word_mastery_some (st : TrackerState) (w : String) (row : WordRow)
    (hlook : lookupWord st w = some row) (ic : Bool) (ef : ℚ) (int : ℤ) (reps : ℕ)
    (nr : ℤ) (ml : String) (now : ℤ) :
    update_word_mastery st w ic (some ef) (some int) (some reps) (some nr) (some ml) now =
      ⟨setWord st.word_mastery w
          ⟨row.times_practiced + 1, row.times_correct + (if ic then 1 else 0),
           ml, some nr, ef, int, reps⟩,
       st.total_words_learned⟩ := by
  unfold update_word_mastery
  simp [hlook]

/-- `process_review` on a known word with a valid quality applies the
scheduler and persists its fields. -/
lemma process_review_ok (st : TrackerState) (word : String) (row : WordRow)
    (quality now : ℤ) (hlook : lookupWord st word = some row) (c : Card)
    (hc : sm2_algorithm (rowCard row) quality now = .ok c) :
    process_review st word quality now =
      (update_word_mastery st word (decide (3 ≤ quality)) (some c.easiness_factor)
        (some c.interval) (some c.repetitions) (some c.next_review)
        (some c.mastery_level) now,
       .ok ⟨word, quality, c.interval, c.next_review, c.mastery_level,
            c.easiness_factor⟩) := by
  unfold process_review
  simp only [hlook, hc]

/-- C3 (amended): on the SRS review path the stored tier is the spec's pure
function of the card's fields — `sm2_algorithm` recomputes
`calculateMasteryLevel` of the updated card, and `process_review` persists
exactly that value, so the freshly stored row satisfies the spec formula of
its own fields.  The store's `update_word_mastery`, when no tier value is
supplied by the caller, instead derives the tier with the practice-count
fallback `storeMasteryFallback` (tp ≥ 10 ∧ acc ≥ 0.9 → mastered;
tp ≥ 5 ∧ acc ≥ 0.7 → proficient; tp ≥ 3 → learning; else new), which is a
different function and can disagree with the spec's. -/
theorem mastery_tier_write_paths :
    (∀ (card : Card) (quality now : ℤ), 0 ≤ quality → quality ≤ 5 →
      ∃ c, sm2_algorithm card quality now = Except.ok c ∧
        c.mastery_level = calculateMasteryLevel c) ∧
    (∀ (st : TrackerState) (word : String) (row : WordRow) (quality now : ℤ),
      lookupWord st word = some row → 0 ≤ quality → quality ≤ 5 →
      ∃ r, lookupWord (process_review st word quality now).1 word = some r ∧
        r.mastery_level = specMasteryOfRow r) ∧
    (∀ (st : TrackerState) (w : String) (row : WordRow) (ic : Bool) (now : ℤ),
      lookupWord st w = some row →
      ∃ r, lookupWord (update_word_mastery st w ic none none none none none now) w
          = some r ∧
        r.mastery_level =
          (storeMasteryFallback (row.times_practiced + 1)
            (row.times_correct + (if ic then 1 else 0))).1) := by
  refine ⟨?_, ?_, ?_⟩
  · intro card quality now h0 h5
    obtain ⟨c, hc, _, _, _, _, _, _, hml⟩ := sm2_algorithm_ok card quality now h0 h5
    exact ⟨c, hc, hml⟩
  · intro st word row quality now hlook h0 h5
    obtain ⟨c, hc, htp, htc, _, _, _, _, hml⟩ :=
      sm2_algorithm_ok (rowCard row) quality now h0 h5
    rw [process_review_ok st word row quality now hlook c hc]
    rw [show (update_word_mastery st word (decide (3 ≤ quality))
          (some c.easiness_factor) (some c.interval) (some c.repetitions)
          (some c.next_review) (some c.mastery_level) now,
        Except.ok (⟨word, quality, c.interval, c.next_review, c.mastery_level,
          c.easiness_factor⟩ : ReviewResult)).1
      = update_word_mastery st word (decide (3 ≤ quality)) (some c.easiness_factor)
          (some c.interval) (some c.repetitions) (some c.next_review)
          (some c.mastery_level) now from rfl]
    rw [update_word_mastery_some st word row hlook]
    refine ⟨_, lookup_setWord_self _ _ _, ?_⟩
    show c.mastery_level = _
    unfold specMasteryOfRow
    rw [hml]
    exact calculateMasteryLevel_congr _ _ htp (by simp [htc, rowCard]) rfl rfl
  · intro st w row ic now hlook
    unfold update_word_mastery
    simp only [hlook]
    exact ⟨_, lookup_setWord_self _ _ _, rfl⟩

/-- Closed witness for `mastery_tier_write_paths`, instantiating all three
conjuncts on a one-word store. -/
theorem mastery_tier_write_paths_witness :
    (∃ c, sm2_algorithm {} 5 0 = Except.ok c ∧
      c.mastery_level = calculateMasteryLevel c) ∧
    (∃ r, lookupWord (process_review ⟨[("好", {})], 1⟩ "好" 5 0).1 "好" = some r ∧
      r.mastery_level = specMasteryOfRow r) ∧
    (∃ r, lookupWord
        (update_word_mastery ⟨[("好", {})], 1⟩ "好" true none none none none none 0)
        "好" = some r ∧
      r.mastery_level = (storeMasteryFallback (0 + 1) (0 + (if true then 1 else 0))).1) :=
  ⟨mastery_tier_write_paths.1 {} 5 0 (by decide) (by decide),
   mastery_tier_write_paths.2.1 ⟨[("好", {})], 1⟩ "好" {} 5 0 rfl
     (by decide) (by decide),
   mastery_tier_write_paths.2.2 ⟨[("好", {})], 1⟩ "好" {} true 0 rfl⟩

/-- C3 counterexample: `update_word_mastery` with no supplied tier, on a
stored record with counters 9/9 (repetitions 0, interval 0), stores tier
"mastered", while the spec's tier function of the stored fields gives
"new" — so the stored tier does not equal the spec's pure function on this
write path. -/
theorem mastery_tier_store_counterexample :
    lookupWord
        (update_word_mastery ⟨[("好", ⟨9, 9, "learning", none, 5/2, 0, 0⟩)], 1⟩
          "好" true none none none none none 0) "好"
      = some ⟨10, 10, "mastered", some 30, 5/2, 0, 0⟩ ∧
    specMasteryOfRow ⟨10, 10, "mastered", some 30, 5/2, 0, 0⟩ = "new" ∧
    ("mastered" : String) ≠ "new" := by
  have hfb : storeMasteryFallback 10 10 = ("mastered", 30) := by
    unfold storeMasteryFallback
    norm_num
  refine ⟨?_, ?_, by decide⟩
  · unfold update_word_mastery
    simp [lookupWord, setWord, hfb]
  · unfold specMasteryOfRow calculateMasteryLevel rowCard
    norm_num

/-- C9: `process_review` invoked for a word with no prior practice record
fails with the word-not-found error and leaves all persisted state
unchanged: no card is created and no counter changes. -/
theorem process_review_word_not_found (st : TrackerState) (word : String)
    (quality now : ℤ) (h : lookupWord st word = none) :
    process_review st word quality now
      = (st, .error ("Word '" ++ word ++ "' not found")) := by
  unfold process_review
  simp only [h]

/-- Closed witness for `process_review_word_not_found` on a store holding a
different word. -/
theorem process_review_word_not_found_witness :
    process_review ⟨[("好", {})], 1⟩ "你" 5 0
      = (⟨[("好", {})], 1⟩, .error ("Word '" ++ "你" ++ "' not found")) :=
  process_review_word_not_found ⟨[("好", {})], 1⟩ "你" 5 0 (by decide)

/-- `xp_for_next_level` from `src/learning/gamification.py`:
`int(100 * (1.5 ** (level - 1)))`, modelled exactly over the rationals —
`100 · (3/2)^(level−1)` floored, i.e. `(100 · 3^(level−1)) / 2^(level−1)`
in natural division (Python's `int` truncation equals the floor here since
the value is positive). -/
def xp_for_next_level (level : ℕ) : ℕ :=
  (100 * 3 ^ (level - 1)) / 2 ^ (level - 1)

/-- `xp_for_current_level`: total XP needed to reach the start of `level`
(`sum(int(100 * (1.5 ** (l - 1))) for l in range(1, level))`). -/
def xp_for_current_level (level : ℕ) : ℕ :=
  ∑ l in Finset.Ico 1 level, xp_for_next_level l

/-- The `while True` loop of `calculate_level`, with explicit fuel.  Every
iteration grows `xp_accumulated` by at least 100, so any fuel exceeding
`total_xp - xp_accumulated` makes the fuel case unreachable
(`levelLoop_spec`). -/
def levelLoop (total_xp : ℕ) : ℕ → ℕ → ℕ → ℕ
  | 0, level, _ => level
  | fuel + 1, level, acc =>
    let xpThis := xp_for_next_level level
    if acc + xpThis > total_xp then level
    else levelLoop total_xp fuel (level + 1) (acc + xpThis)

/-- `calculate_level` from `src/learning/gamification.py`. -/
def calculate_level (total_xp : ℤ) : ℕ :=
  if total_xp ≤ 0 then 1
  else levelLoop total_xp.toNat (total_xp.toNat + 1) 1 0

lemma xp_for_next_level_pos (l : ℕ) : 0 < xp_for_next_level l := by
  unfold xp_for_next_level
  apply Nat.div_pos _ (Nat.pos_pow_of_pos _ (by norm_num))
  calc 2 ^ (l - 1) ≤ 3 ^ (l - 1) := Nat.pow_le_pow_left (by norm_num) _
    _ ≤ 100 * 3 ^ (l - 1) := Nat.le_mul_of_pos_left _ (by norm_num)

lemma xp_for_current_level_succ (n : ℕ) (h : 1 ≤ n) :
    xp_for_current_level (n + 1) = xp_for_current_level n + xp_for_next_level n := by
  unfold xp_for_current_level
  exact Finset.sum_Ico_succ_top h _

lemma xp_for_current_level_mono : Monotone xp_for_current_level := by
  intro a b hab
  exact Finset.sum_le_sum_of_subset (Finset.Ico_subset_Ico le_rfl hab)

lemma levelLoop_spec (total : ℕ) : ∀ (fuel level acc : ℕ),
    1 ≤ level → acc = xp_for_current_level level → acc ≤ total →
    total < acc + fuel →
    xp_for_current_level (levelLoop total fuel level acc) ≤ total ∧
    total < xp_for_current_level (levelLoop total fuel level acc + 1) ∧
    level ≤ levelLoop total fuel level acc := by
  intro fuel
  induction fuel with
  | zero => intro level acc _ _ hle hfuel; omega
  | succ fuel ih =>
    intro level acc h1 hacc hle hfuel
    unfold levelLoop
    by_cases hbr : acc + xp_for_next_level level > total
    · rw [if_pos hbr]
      refine ⟨hacc ▸ hle, ?_, le_refl _⟩
      rw [xp_for_current_level_succ level h1]
      omega
    · rw [if_neg hbr]
      have hrec := ih (level + 1) (acc + xp_for_next_level level) (by omega)
        (by rw [xp_for_current_level_succ level h1, hacc])
        (by omega)
        (by have := xp_for_next_level_pos level; omega)
      exact ⟨hrec.1, hrec.2.1, by omega⟩

/-- Characterisation of `calculate_level` on non-negative XP totals. -/
lemma calculate_level_char (xp : ℤ) (h : 0 ≤ xp) :
    1 ≤ calculate_level xp ∧
    (xp_for_current_level (calculate_level xp) : ℤ) ≤ xp ∧
    xp < (xp_for_current_level (calculate_level xp + 1) : ℤ) := by
  unfold calculate_level
  by_cases h0 : xp ≤ 0
  · rw [if_pos h0]
    have hxp : xp = 0 := le_antisymm h0 h
    subst hxp
    refine ⟨le_refl _, ?_, ?_⟩
    · norm_num [xp_for_current_level]
    · have : xp_for_current_level 2 = 100 := rfl
      rw [this]
      norm_num
  · rw [if_neg h0]
    have hpos : 0 < xp := lt_of_not_le h0
    have hspec := levelLoop_spec xp.toNat (xp.toNat + 1) 1 0 (le_refl 1)
      (by norm_num [xp_for_current_level]) (Nat.zero_le _) (by omega)
    have hcast : (xp.toNat : ℤ) = xp := Int.toNat_of_nonneg h
    refine ⟨hspec.2.2, ?_, ?_⟩
    · rw [← hcast]
      exact_mod_cast hspec.1
    · rw [← hcast]
      exact_mod_cast hspec.2.1

/-- Maximality: any level whose cumulative requirement fits in `xp` is at
most `calculate_level xp`. -/
lemma calculate_level_max (xp : ℤ) (h : 0 ≤ xp) (n : ℕ)
    (hn : (xp_for_current_level n : ℤ) ≤ xp) : n ≤ calculate_level xp := by
  by_contra hlt
  push_neg at hlt
  have h1 : calculate_level xp + 1 ≤ n := hlt
  have hmono := xp_for_current_level_mono h1
  have := (calculate_level_char xp h).2.2
  have : (xp_for_current_level (calculate_level xp + 1) : ℤ) ≤ xp :=
    le_trans (by exact_mod_cast hmono) hn
  omega

/-- C5: for every xp ≥ 0, `calculate_level xp` is the largest level n whose
cumulative XP requirement (the sum of floor(100·1.5^(k−1)) over levels k
below n, i.e. `xp_for_current_level n`) is at most xp; `calculate_level` is
non-decreasing in xp; and `calculate_level 0 = 1`. -/
theorem calculate_level_spec (xp xp' : ℤ) (h0 : 0 ≤ xp) (hle : xp ≤ xp') :
    (1 ≤ calculate_level xp ∧
     (xp_for_current_level (calculate_level xp) : ℤ) ≤ xp ∧
     (∀ n : ℕ, (xp_for_current_level n : ℤ) ≤ xp → n ≤ calculate_level xp)) ∧
    calculate_level xp ≤ calculate_level xp' ∧
    calculate_level 0 = 1 := by
  obtain ⟨hone, hcum, -⟩ := calculate_level_char xp h0
  refine ⟨⟨hone, hcum, fun n hn => calculate_level_max xp h0 n hn⟩, ?_, rfl⟩
  exact calculate_level_max xp' (le_trans h0 hle) _ (le_trans hcum hle)

/-- Closed witness for `calculate_level_spec` at xp = 150 ≤ xp' = 300. -/
theorem calculate_level_spec_witness :
    (1 ≤ calculate_level 150 ∧
     (xp_for_current_level (calculate_level 150) : ℤ) ≤ 150 ∧
     (∀ n : ℕ, (xp_for_current_level n : ℤ) ≤ 150 → n ≤ calculate_level 150)) ∧
    calculate_level 150 ≤ calculate_level 300 ∧
    calculate_level 0 = 1 :=
  calculate_level_spec 150 300 (by decide) (by decide)

/-- The XP reward table `XP_REWARDS` from `src/learning/gamification.py`. -/
def XP_REWARDS : List (String × ℕ) :=
  [("word_learned", 10), ("word_mastered", 50), ("quiz_correct", 5),
   ("quiz_perfect", 30), ("conversation_turn", 8), ("pronunciation_good", 15),
   ("daily_goal_met", 20), ("streak_bonus_7", 50), ("streak_bonus_30", 200)]

/-- `XP_REWARDS.get(event, 0)`. -/
def xpRewardBase (event : String) : ℕ := (XP_REWARDS.lookup event).getD 0

/-- The XP slice of the singleton `user_progress` row that `award_xp`
reads and writes (`tracker.add_xp` adds to `total_xp` and returns it). -/
structure XpState where
  total_xp : ℤ := 0
  deriving Repr, DecidableEq

/-- The dict returned by `GamificationSystem.award_xp`. -/
structure XpResult where
  xp_gained : ℤ
  total_xp : ℤ
  level : ℕ
  leveled_up : Bool
  deriving Repr, DecidableEq

/-- `GamificationSystem.award_xp`. -/
def award_xp (st : XpState) (event : String) (extra_multiplier : ℚ) :
    XpState × XpResult :=
  let xp_amount : ℤ := pyInt ((xpRewardBase event : ℚ) * extra_multiplier)
  if xp_amount ≤ 0 then (st, ⟨0, 0, 1, false⟩)
  else
    let old_level := calculate_level st.total_xp
    let new_total := st.total_xp + xp_amount
    let new_level := calculate_level new_total
    (⟨new_total⟩, ⟨xp_amount, new_total, new_level, decide (old_level < new_level)⟩)

/-- `pyInt` agrees with the floor on arguments with positive floor. -/
lemma pyInt_eq_floor_of_pos (q : ℚ) (h : 0 < ⌊q⌋) : pyInt q = ⌊q⌋ := by
  unfold pyInt
  rw [if_pos]
  have := Int.floor_le q
  have h1 : (1 : ℚ) ≤ q := by
    have : (1 : ℤ) ≤ ⌊q⌋ := h
    calc (1 : ℚ) ≤ (⌊q⌋ : ℚ) := by exact_mod_cast this
      _ ≤ q := Int.floor_le q
  linarith

/-- C6: `award_xp` gains floor(base · multiplier) XP where base is the fixed
table value for the event; an event absent from the table awards 0 with no
state change; whenever the computed gain is ≤ 0 nothing is persisted and
`leveled_up` is false; and on a fresh profile `award_xp "quiz_perfect"`
returns gained = 30, total = 30, level = 1, leveled_up = false. -/
theorem award_xp_spec :
    (∀ (st : XpState) (event : String) (m : ℚ),
      XP_REWARDS.lookup event = none →
      award_xp st event m = (st, ⟨0, 0, 1, false⟩)) ∧
    (∀ (st : XpState) (event : String) (m : ℚ),
      pyInt ((xpRewardBase event : ℚ) * m) ≤ 0 →
      award_xp st event m = (st, ⟨0, 0, 1, false⟩)) ∧
    (∀ (st : XpState) (event : String) (m : ℚ),
      0 < ⌊(xpRewardBase event : ℚ) * m⌋ →
      (award_xp st event m).2.xp_gained = ⌊(xpRewardBase event : ℚ) * m⌋ ∧
      (award_xp st event m).1.total_xp
        = st.total_xp + ⌊(xpRewardBase event : ℚ) * m⌋ ∧
      (award_xp st event m).2.total_xp
        = st.total_xp + ⌊(xpRewardBase event : ℚ) * m⌋) ∧
    award_xp ⟨0⟩ "quiz_perfect" 1 = (⟨30⟩, ⟨30, 30, 1, false⟩) := by
  have hzero : ∀ (st : XpState) (event : String) (m : ℚ),
      pyInt ((xpRewardBase event : ℚ) * m) ≤ 0 →
      award_xp st event m = (st, ⟨0, 0, 1, false⟩) := by
    intro st event m h
    unfold award_xp
    rw [if_pos h]
  refine ⟨?_, hzero, ?_, ?_⟩
  · intro st event m h
    apply hzero
    have hbase : xpRewardBase event = 0 := by
      unfold xpRewardBase
      rw [h]
      rfl
    rw [hbase]
    norm_num [pyInt]
  · intro st event m h
    have hpy : pyInt ((xpRewardBase event : ℚ) * m) = ⌊(xpRewardBase event : ℚ) * m⌋ :=
      pyInt_eq_floor_of_pos _ h
    unfold award_xp
    rw [hpy, if_neg (by omega)]
    exact ⟨rfl, rfl, rfl⟩
  · have h30 : pyInt ((xpRewardBase "quiz_perfect" : ℚ) * 1) = 30 := by
      have hb : xpRewardBase "quiz_perfect" = 30 := rfl
      rw [hb]
      norm_num [pyInt]
    unfold award_xp
    rw [h30, if_neg (by omega)]
    have hlv : calculate_level ((0 : ℤ) + 30) = 1 := rfl
    have hlv0 : calculate_level (({} : XpState).total_xp) = 1 := rfl
    simp only [hlv]
    rfl

/-- Closed witness for `award_xp_spec`, instantiating the three conditional
conjuncts on concrete states. -/
theorem award_xp_spec_witness :
    award_xp ⟨120⟩ "no_such_event" 1 = (⟨120⟩, ⟨0, 0, 1, false⟩) ∧
    award_xp ⟨120⟩ "word_learned" 0 = (⟨120⟩, ⟨0, 0, 1, false⟩) ∧
    ((award_xp ⟨120⟩ "word_learned" 1).2.xp_gained
        = ⌊(xpRewardBase "word_learned" : ℚ) * 1⌋ ∧
      (award_xp ⟨120⟩ "word_learned" 1).1.total_xp
        = 120 + ⌊(xpRewardBase "word_learned" : ℚ) * 1⌋ ∧
      (award_xp ⟨120⟩ "word_learned" 1).2.total_xp
        = 120 + ⌊(xpRewardBase "word_learned" : ℚ) * 1⌋) :=
  ⟨award_xp_spec.1 ⟨120⟩ "no_such_event" 1 rfl,
   award_xp_spec.2.1 ⟨120⟩ "word_learned" 0
     (by norm_num [pyInt, xpRewardBase, XP_REWARDS]),
   award_xp_spec.2.2.1 ⟨120⟩ "word_learned" 1
     (by norm_num [xpRewardBase, XP_REWARDS])⟩

/-- C10: whenever `award_xp` takes its zero-gain branch (unknown event or
computed gain ≤ 0), the returned result reports total_xp = 0 and level = 1
as constants, independent of the stored XP total, and persists nothing. -/
theorem award_xp_zero_branch_constants (st : XpState) (event : String) (m : ℚ)
    (h : pyInt ((xpRewardBase event : ℚ) * m) ≤ 0) :
    (award_xp st event m).2.total_xp = 0 ∧
    (award_xp st event m).2.level = 1 ∧
    (award_xp st event m).1 = st := by
  unfold award_xp
  rw [if_pos h]
  exact ⟨rfl, rfl, rfl⟩

/-- Closed witness for `award_xp_zero_branch_constants`: a profile holding
500 XP is reported as total 0, level 1 on the zero-gain branch. -/
theorem award_xp_zero_branch_constants_witness :
    (award_xp ⟨500⟩ "word_learned" 0).2.total_xp = 0 ∧
    (award_xp ⟨500⟩ "word_learned" 0).2.level = 1 ∧
    (award_xp ⟨500⟩ "word_learned" 0).1 = ⟨500⟩ :=
  award_xp_zero_branch_constants ⟨500⟩ "word_learned" 0
    (by norm_num [pyInt, xpRewardBase, XP_REWARDS])

/-- The streak slice of the singleton `user_progress` row (defaults are the
SQL column defaults; `last_study_date` is a calendar-day ordinal, exact for
the `date.fromisoformat` / `timedelta(days=1)` arithmetic the source
performs). -/
structure StreakState where
  current_streak : ℕ := 0
  longest_streak : ℕ := 0
  last_study_date : Option ℤ := none
  deriving Repr, DecidableEq

/-- The dict returned by `ProgressTracker.update_streak`; the same-day path
returns no `longest_streak` key, hence the `Option`. -/
structure StreakResult where
  current_streak : ℕ
  longest_streak : Option ℕ
  already_done : Bool
  deriving Repr, DecidableEq

/-- `ProgressTracker.update_streak` (`today` is today's day ordinal). -/
def update_streak (st : StreakState) (today : ℤ) : StreakState × StreakResult :=
  match st.last_study_date with
  | some last =>
    if last = today then
      (st, ⟨st.current_streak, none, true⟩)
    else
      let cur := if last = today - 1 then st.current_streak + 1 else 1
      let lng := max st.longest_streak cur
      (⟨cur, lng, some today⟩, ⟨cur, some lng, false⟩)
  | none =>
    let cur := 1
    let lng := max st.longest_streak cur
    (⟨cur, lng, some today⟩, ⟨cur, some lng, false⟩)

/-- C7: `update_streak` compares the stored last-study-date with the current
calendar date: same day is a no-op reporting `already_done` with the streak
unchanged; exactly one day later increments the streak; any larger gap or a
first-ever call resets it to 1; the stored longest streak equals
max(longest, current) after every call (the same-day path writes nothing,
which preserves that equation whenever the streak invariant
current ≤ longest held before); and calls on days D, D+1, D+3 from a fresh
state yield the streak sequence 1, 2, 1. -/
theorem update_streak_spec :
    (∀ (st : StreakState) (today : ℤ), st.last_study_date = some today →
      update_streak st today = (st, ⟨st.current_streak, none, true⟩)) ∧
    (∀ (st : StreakState) (today : ℤ), st.last_study_date = some (today - 1) →
      (update_streak st today).1.current_streak = st.current_streak + 1 ∧
      (update_streak st today).2.current_streak = st.current_streak + 1 ∧
      (update_streak st today).2.already_done = false) ∧
    (∀ (st : StreakState) (today : ℤ),
      (st.last_study_date = none ∨
        ∃ last, st.last_study_date = some last ∧ last ≠ today ∧ last ≠ today - 1) →
      (update_streak st today).1.current_streak = 1) ∧
    (∀ (st : StreakState) (today : ℤ), st.current_streak ≤ st.longest_streak →
      (update_streak st today).1.longest_streak
        = max st.longest_streak ((update_streak st today).1.current_streak)) ∧
    (∀ (st : StreakState) (D : ℤ), st.last_study_date = none →
      (update_streak st D).1.current_streak = 1 ∧
      (update_streak (update_streak st D).1 (D + 1)).1.current_streak = 2 ∧
      (update_streak (update_streak (update_streak st D).1 (D + 1)).1
        (D + 3)).1.current_streak = 1) := by
  refine ⟨?_, ?_, ?_, ?_, ?_⟩
  · intro st today h
    simp [update_streak, h]
  · intro st today h
    have hne : today - 1 ≠ today := by omega
    simp [update_streak, h, hne]
  · intro st today h
    rcases h with h | ⟨last, hl, hne, hne1⟩
    · simp [update_streak, h]
    · simp [update_streak, hl, hne, hne1]
  · intro st today hinv
    cases hls : st.last_study_date with
    | none => simp [update_streak, hls]
    | some last =>
      by_cases h : last = today
      · simp [update_streak, hls, h, Nat.max_eq_left hinv]
      · simp [update_streak, hls, h]
  · intro st D h
    have h1 : (update_streak st D).1 = ⟨1, max st.longest_streak 1, some D⟩ := by
      simp [update_streak, h]
    have hne : D ≠ D + 1 := by omega
    have h2 : (update_streak (update_streak st D).1 (D + 1)).1
        = ⟨2, max (max st.longest_streak 1) 2, some (D + 1)⟩ := by
      rw [h1]
      simp [update_streak, hne]
    refine ⟨by rw [h1], by rw [h2], ?_⟩
    rw [h2]
    simp [update_streak, show (D + 1 : ℤ) ≠ D + 3 from by omega,
      show (D + 1 : ℤ) ≠ D + 3 - 1 from by omega]

/-- Closed witness for `update_streak_spec`, instantiating every conjunct on
concrete states and dates. -/
theorem update_streak_spec_witness :
    update_streak ⟨3, 5, some 10⟩ 10 = (⟨3, 5, some 10⟩, ⟨3, none, true⟩) ∧
    ((update_streak ⟨3, 5, some 9⟩ 10).1.current_streak = 3 + 1 ∧
      (update_streak ⟨3, 5, some 9⟩ 10).2.current_streak = 3 + 1 ∧
      (update_streak ⟨3, 5, some 9⟩ 10).2.already_done = false) ∧
    (update_streak ⟨3, 5, some 7⟩ 10).1.current_streak = 1 ∧
    (update_streak ⟨3, 5, some 9⟩ 10).1.longest_streak
      = max 5 ((update_streak ⟨3, 5, some 9⟩ 10).1.current_streak) ∧
    ((update_streak ⟨0, 0, none⟩ 100).1.current_streak = 1 ∧
      (update_streak (update_streak ⟨0, 0, none⟩ 100).1 (100 + 1)).1.current_streak = 2 ∧
      (update_streak (update_streak (update_streak ⟨0, 0, none⟩ 100).1 (100 + 1)).1
        (100 + 3)).1.current_streak = 1) :=
  ⟨update_streak_spec.1 ⟨3, 5, some 10⟩ 10 rfl,
   update_streak_spec.2.1 ⟨3, 5, some 9⟩ 10 (by norm_num),
   update_streak_spec.2.2.1 ⟨3, 5, some 7⟩ 10
     (Or.inr ⟨7, rfl, by norm_num, by norm_num⟩),
   update_streak_spec.2.2.2.1 ⟨3, 5, some 9⟩ 10 (by norm_num),
   update_streak_spec.2.2.2.2 ⟨0, 0, none⟩ 100 rfl⟩

/-- One entry of the static `ACHIEVEMENTS` catalog in
`src/learning/gamification.py` (id, category, numeric requirement; the
display-only name/description/icon strings are not read by
`check_achievements` and are omitted). -/
structure Achievement where
  id : String
  category : String
  requirement : ℕ
  deriving Repr, DecidableEq

/-- The static achievement catalog. -/
def ACHIEVEMENTS : List Achievement :=
  [⟨"first_word", "words", 1⟩, ⟨"words_10", "words", 10⟩,
   ⟨"words_50", "words", 50⟩, ⟨"words_100", "words", 100⟩,
   ⟨"streak_3", "streak", 3⟩, ⟨"streak_7", "streak", 7⟩,
   ⟨"streak_30", "streak", 30⟩,
   ⟨"quiz_first", "score", 1⟩, ⟨"quiz_perfect", "score", 100⟩,
   ⟨"quiz_10", "score", 10⟩,
   ⟨"time_1h", "time", 60⟩, ⟨"time_10h", "time", 600⟩,
   ⟨"hsk1_complete", "special", 150⟩]

/-- The aggregate statistics `check_achievements` evaluates its predicates
against: the fields of `tracker.get_statistics()` it reads, together with
`current_streak` from `tracker.get_user_progress()`. -/
structure AggregateStats where
  total_words_learned : ℕ := 0
  total_sessions : ℕ := 0
  best_quiz_score : ℚ := 0
  total_study_minutes : ℕ := 0
  mastered_words : ℕ := 0
  current_streak : ℕ := 0
  deriving Repr, DecidableEq

/-- The category-specific unlock predicate inside the loop of
`GamificationSystem.check_achievements`. -/
def achievementMet (s : AggregateStats) (a : Achievement) : Bool :=
  if a.category = "words" then decide (s.total_words_learned ≥ a.requirement)
  else if a.category = "streak" then decide (s.current_streak ≥ a.requirement)
  else if a.category = "score" then
    if a.id = "quiz_first" then decide (s.total_sessions ≥ 1)
    else if a.id = "quiz_perfect" then decide (s.best_quiz_score ≥ 100)
    else if a.id = "quiz_10" then decide (s.total_sessions ≥ a.requirement)
    else false
  else if a.category = "time" then decide (s.total_study_minutes ≥ a.requirement)
  else if a.category = "special" then decide (s.mastered_words ≥ a.requirement)
  else false

/-- The gamification state `check_achievements` mutates: the set of unlocked
achievement ids (the `unlocked` flags of the `achievements` table) and the
XP state touched by the bonus `award_xp("word_mastered")` per unlock. -/
structure GamState where
  unlocked : List String := []
  xp : XpState := {}
  deriving Repr, DecidableEq

/-- The loop of `GamificationSystem.check_achievements` over the catalog:
skip already-unlocked entries, evaluate the predicate on the statistics
fetched at entry, unlock and grant bonus XP on success, and collect the
newly unlocked achievements in order. -/
def checkLoop (s : AggregateStats) : List Achievement → GamState → GamState × List Achievement
  | [], st => (st, [])
  | a :: rest, st =>
    if st.unlocked.contains a.id then checkLoop s rest st
    else if achievementMet s a then
      let st' : GamState :=
        { unlocked := a.id :: st.unlocked,
          xp := (award_xp st.xp "word_mastered" 1).1 }
      ((checkLoop s rest st').1, a :: (checkLoop s rest st').2)
    else checkLoop s rest st

/-- `GamificationSystem.check_achievements` (the statistics are read once at
entry and are a parameter here; the claim's "unchanged statistics" is the
same parameter on both calls). -/
def check_achievements (s : AggregateStats) (st : GamState) : GamState × List Achievement :=
  checkLoop s ACHIEVEMENTS st

/-- The loop never removes an id from the unlocked set. -/
lemma checkLoop_mono (s : AggregateStats) :
    ∀ (l : List Achievement) (st : GamState) (aid : String),
    st.unlocked.contains aid = true →
    (checkLoop s l st).1.unlocked.contains aid = true := by
  intro l
  induction l with
  | nil => intro st aid h; exact h
  | cons a rest ih =>
    intro st aid h
    unfold checkLoop
    by_cases h1 : st.unlocked.contains a.id
    · rw [if_pos h1]; exact ih st aid h
    · rw [if_neg h1]
      by_cases h2 : achievementMet s a
      · rw [if_pos h2]
        have hmem : aid ∈ st.unlocked := by simpa using h
        exact ih _ aid (by simp [hmem])
      · rw [if_neg h2]; exact ih st aid h

/-- After the loop, every catalog entry whose predicate holds is unlocked. -/
lemma checkLoop_complete (s : AggregateStats) :
    ∀ (l : List Achievement) (st : GamState) (a : Achievement), a ∈ l →
    achievementMet s a = true →
    (checkLoop s l st).1.unlocked.contains a.id = true := by
  intro l
  induction l with
  | nil => intro st a h; exact absurd h (List.not_mem_nil a)
  | cons b rest ih =>
    intro st a hmem hmet
    unfold checkLoop
    rcases List.mem_cons.mp hmem with heq | hmem'
    · subst heq
      by_cases h1 : st.unlocked.contains a.id
      · rw [if_pos h1]; exact checkLoop_mono s rest st a.id h1
      · rw [if_neg h1, if_pos hmet]
        exact checkLoop_mono s rest _ a.id (by simp)
    · by_cases h1 : st.unlocked.contains b.id
      · rw [if_pos h1]; exact ih st a hmem' hmet
      · rw [if_neg h1]
        by_cases h2 : achievementMet s b
        · rw [if_pos h2]; exact ih _ a hmem' hmet
        · rw [if_neg h2]; exact ih st a hmem' hmet

/-- If every catalog entry is already unlocked or fails its predicate, the
loop is a no-op returning no new achievements. -/
lemma checkLoop_stable (s : AggregateStats) :
    ∀ (l : List Achievement) (st : GamState),
    (∀ a ∈ l, st.unlocked.contains a.id = true ∨ achievementMet s a = false) →
    checkLoop s l st = (st, []) := by
  intro l
  induction l with
  | nil => intro st _; rfl
  | cons a rest ih =>
    intro st h
    unfold checkLoop
    rcases h a (List.mem_cons_self a rest) with h1 | h1
    · rw [if_pos h1]
      exact ih st (fun b hb => h b (List.mem_cons_of_mem a hb))
    · by_cases h2 : st.unlocked.contains a.id
      · rw [if_pos h2]
        exact ih st (fun b hb => h b (List.mem_cons_of_mem a hb))
      · rw [if_neg h2, if_neg (by simp [h1])]
        exact ih st (fun b hb => h b (List.mem_cons_of_mem a hb))

/-- C8: achievement unlocking is one-way and idempotent: an unlocked id stays
unlocked through any further `check_achievements` call, and a second call
with the same aggregate statistics is a no-op returning the empty list (the
bonus XP granted inside the first call does not enable further unlocks,
since no predicate reads the XP total). -/
theorem check_achievements_idempotent :
    (∀ (s : AggregateStats) (st : GamState) (aid : String),
      st.unlocked.contains aid = true →
      (check_achievements s st).1.unlocked.contains aid = true) ∧
    (∀ (s : AggregateStats) (st : GamState),
      check_achievements s (check_achievements s st).1
        = ((check_achievements s st).1, [])) := by
  constructor
  · intro s st aid h
    exact checkLoop_mono s ACHIEVEMENTS st aid h
  · intro s st
    apply checkLoop_stable
    intro a ha
    by_cases hmet : achievementMet s a
    · exact Or.inl (checkLoop_complete s ACHIEVEMENTS st a ha hmet)
    · exact Or.inr (by simpa using hmet)

/-- Closed witness for `check_achievements_idempotent`: a state with
`first_word` already unlocked keeps it, and a repeated call on a concrete
fresh state returns nothing new. -/
theorem check_achievements_idempotent_witness :
    (check_achievements {} ⟨["first_word"], ⟨0⟩⟩).1.unlocked.contains "first_word"
      = true ∧
    check_achievements {} (check_achievements {} ⟨[], ⟨0⟩⟩).1
      = ((check_achievements {} ⟨[], ⟨0⟩⟩).1, []) :=
  ⟨check_achievements_idempotent.1 {} ⟨["first_word"], ⟨0⟩⟩ "first_word" rfl,
   check_achievements_idempotent.2 {} ⟨[], ⟨0⟩⟩⟩

end ChineseLearning
